import Mathlib

/-!
Verification of the js-in-strings template engine (src/index.ts) against its
natural-language specification.

The engine is a single function renderTemplateWithJS (src/index.ts lines
75-235).  It finds delimiter-marked regions in a template string with a
regular expression, evaluates each region text as a JavaScript
expression against a merged context, and substitutes the result (string
mode), or — when returnRawValues is set and the whole trimmed template is
one region — returns the raw evaluated value (raw mode).

Modelling choices:
- Machine strings are List Char / String; the template scan is modelled
  directly from the two regular expressions the source constructs
  (src/index.ts lines 88-89) after delimiter escaping (line 84-85).  The
  constructed region pattern is literal-open, a lazy run of characters
  excluded from the delimiter character class, literal-close; the
  whole-template pattern is anchored literal-open, lazy any-character run,
  literal-close.  The escaping step itself is modelled by escapeRegExp and
  parsePattern below, and the fact that escaping makes the delimiter text
  literal is proved, which justifies scanning for the delimiter strings
  themselves.
- The host JavaScript engine (the Function constructor at lines 169 and
  215, and direct eval at lines 128 and 204) is an external collaborator
  per spec section 1/4.5/9.  It is modelled as an explicit Host parameter
  mapping a constructed program text and the sandbox bindings to an
  Outcome; an exception thrown by the host is a failure outcome, matching
  the catch blocks at lines 178-181, 184-187 and 229-233.
- JavaScript values are modelled by the inductive JSVal (scalars plus
  arrays); contexts are association lists.
-/

namespace JsInStrings

mutual
/-- Model of a JavaScript value: the scalar values plus arrays, enough to
state the projection and passthrough behaviour of the engine. -/
inductive JSVal where
  | undef : JSVal
  | null : JSVal
  | boolean : Bool → JSVal
  | num : Int → JSVal
  | str : String → JSVal
  | arr : JSValList → JSVal

/-- Lists of JavaScript values (mutual with JSVal so that recursion over
values stays structural). -/
inductive JSValList where
  | nil : JSValList
  | cons : JSVal → JSValList → JSValList
end

/-- Evaluation outcome of one expression: a value, or a failure carrying the
exception message (spec section 3, Evaluation Outcome). -/
inductive Outcome where
  | value : JSVal → Outcome
  | failure : String → Outcome

/-- The external JavaScript runtime behind the engine (spec sections 1 and
4.5: expression execution is delegated).  callFunction models
Function(..., body)(sandbox) applied to the sandbox object built from the
merged context (src/index.ts lines 169 and 215); directEval models direct
eval of a program text (lines 128 and 204).  A thrown exception is a
failure outcome. -/
structure Host where
  callFunction : String → List (String × JSVal) → Outcome
  directEval : String → Outcome

/-- The options record of the source (src/index.ts lines 9-48), with the
same fields and defaults. -/
structure RenderOptions where
  returnRawValues : Bool := false
  sandbox : Bool := false
  allowedGlobals : List (String × JSVal) := []
  timeout : Option Nat := none
  delimiters : Option (String × String) := none
  contextExtensions : List (String × JSVal) := []
  unsafeEval : Bool := false

/-- JavaScript whitespace characters (the common members of the \s class and
of String.prototype.trim). -/
def isJsWs (ch : Char) : Bool :=
  ch = ' ' || ch = '\t' || ch = '\n' || ch = '\r' || ch = '\x0b' || ch = '\x0c' ||
    ch = '\u00A0' || ch = '\uFEFF'

/-- Model of String.prototype.trim (used at src/index.ts lines 99 and 103). -/
def jsTrim (t : List Char) : List Char :=
  ((t.dropWhile isJsWs).reverse.dropWhile isJsWs).reverse

/-- JavaScript line terminators: the characters not matched by the dot in a
regular expression without the s flag. -/
def isJsNl (ch : Char) : Bool :=
  ch = '\n' || ch = '\r' || ch = '\u2028' || ch = '\u2029'

/-- Match a literal character sequence at the head of the text, returning the
remainder.  This is the semantics of an escaped (literal) delimiter inside
the constructed regular expression. -/
def litMatch : List Char → List Char → Option (List Char)
  | [], t => some t
  | _ :: _, [] => none
  | p :: ps, ch :: t => if p = ch then litMatch ps t else none

/-- The lazy part of the region pattern (src/index.ts line 88): a shortest
run of characters outside the delimiter character class S, followed by the
literal close delimiter; returns the run and the remainder after the close
delimiter. -/
def lazyClose (c S : List Char) : List Char → Option (List Char × List Char)
  | [] => (litMatch c []).map (fun rest => (([] : List Char), rest))
  | ch :: t =>
      match litMatch c (ch :: t) with
      | some rest => some (([] : List Char), rest)
      | none =>
          if S.contains ch then none
          else (lazyClose c S t).map (fun p => (ch :: p.1, p.2))

/-- One attempt of the region regular expression at the current position:
literal open delimiter, then lazyClose.  Returns the captured expression
text and the remainder after the match. -/
def matchAt (o c S : List Char) (t : List Char) : Option (List Char × List Char) :=
  (litMatch o t).bind (lazyClose c S)

/-- A segment of the template as seen by the global replace at src/index.ts
line 192: either one literal character outside any match, or the captured
expression text of one matched region. -/
inductive Seg where
  | lit : Char → Seg
  | expr : List Char → Seg

/-- The left-to-right global scan of the region regular expression, as a list
of segments.  The fuel argument bounds the recursion and is always at least
the text length when entered through scanSegs; on a match the scan resumes
after the close delimiter, otherwise it advances one character, exactly as
the global regex scan of String.prototype.replace does. -/
def scanSegsF (o c S : List Char) : Nat → List Char → List Seg
  | _, [] => []
  | 0, ch :: t => (ch :: t).map Seg.lit
  | fuel + 1, ch :: t =>
      match matchAt o c S (ch :: t) with
      | some (content, rest) =>
          if rest.length ≤ t.length then Seg.expr content :: scanSegsF o c S fuel rest
          else Seg.lit ch :: scanSegsF o c S fuel t
      | none => Seg.lit ch :: scanSegsF o c S fuel t

/-- The segments of a text under the region regular expression. -/
def scanSegs (o c S : List Char) (t : List Char) : List Seg :=
  scanSegsF o c S t.length t

/-- The global replace of src/index.ts line 192, with the callback f applied
to each captured expression text; literal characters are copied through. -/
def replaceScanF (f : List Char → String) (o c S : List Char) : Nat → List Char → List Char
  | _, [] => []
  | 0, ch :: t => ch :: t
  | fuel + 1, ch :: t =>
      match matchAt o c S (ch :: t) with
      | some (content, rest) =>
          if rest.length ≤ t.length then (f content).toList ++ replaceScanF f o c S fuel rest
          else ch :: replaceScanF f o c S fuel t
      | none => ch :: replaceScanF f o c S fuel t

/-- template.replace(expressionRegex, f) as a character list transformation. -/
def replaceScan (f : List Char → String) (o c S : List Char) (t : List Char) : List Char :=
  replaceScanF f o c S t.length t

/-- The anchored whole-template pattern singleExpressionRegex (src/index.ts
line 89): literal open delimiter, lazy any-character run, literal close
delimiter, end of text.  Because of the end anchor the pattern matches
exactly when the text is open ++ middle ++ close, and captures the middle. -/
def matchWhole (o c t : List Char) : Option (List Char) :=
  match litMatch o t with
  | none => none
  | some t1 =>
      if c.length ≤ t1.length ∧ t1.drop (t1.length - c.length) = c then
        some (t1.take (t1.length - c.length))
      else none

/-- Skip the longest whitespace run (the backtracking semantics of \s*
followed by a non-whitespace literal). -/
def skipJsWs (t : List Char) : List Char := t.dropWhile isJsWs

/-- Backtracking semantics of a dot-star followed by the literal s followed
by the continuation: true when the text splits as a newline-free run, then
s, then a remainder accepted by the continuation. -/
def dotStarLit (s : List Char) (cont : List Char → Bool) : List Char → Bool
  | [] =>
      (match litMatch s [] with
       | some rest => cont rest
       | none => false)
  | ch :: t =>
      (match litMatch s (ch :: t) with
       | some rest => cont rest
       | none => false) ||
      (!(isJsNl ch) && dotStarLit s cont t)

/-- First IIFE test regex of src/index.ts line 108: anchored whitespace,
open paren, dot-star, close paren, whitespace, open paren, dot-star, close
paren. -/
def iifePat1 (expression : List Char) : Bool :=
  match skipJsWs expression with
  | '(' :: r =>
      dotStarLit [')']
        (fun r1 =>
          match skipJsWs r1 with
          | '(' :: r2 => dotStarLit [')'] (fun _ => true) r2
          | _ => false) r
  | _ => false

/-- Second IIFE test regex of src/index.ts line 109: anchored whitespace,
open paren, dot-star, arrow, dot-star, close paren, whitespace, open
paren. -/
def iifePat2 (expression : List Char) : Bool :=
  match skipJsWs expression with
  | '(' :: r =>
      dotStarLit ['=', '>']
        (fun r1 =>
          dotStarLit [')']
            (fun r2 =>
              match skipJsWs r2 with
              | '(' :: _ => true
              | _ => false) r1) r
  | _ => false

/-- The isIIFE check of src/index.ts lines 108-109. -/
def isIIFE (expression : List Char) : Bool :=
  iifePat1 expression || iifePat2 expression

/-- JavaScript word character, the \w class (boundary test \b). -/
def isWordChar (ch : Char) : Bool :=
  (ch.isAlpha || ch.isDigit) || ch = '_'

/-- The declaration keywords of the hasDeclarations regex at src/index.ts
line 112. -/
def declKeywords : List (List Char) :=
  [String.toList "const", String.toList "let", String.toList "var",
    String.toList "function", String.toList "class"]

/-- A keyword occurrence at the head of the text with a word boundary after
it. -/
def kwBoundaryAt (kw t : List Char) : Bool :=
  match litMatch kw t with
  | some rest =>
      match rest with
      | [] => true
      | ch :: _ => !isWordChar ch
  | none => false

/-- Scan for a declaration keyword occurrence with word boundaries on both
sides; the boundary flag records whether the previous character was a
non-word character (or the start of the text). -/
def hasDeclScan : Bool → List Char → Bool
  | _, [] => false
  | boundary, ch :: t =>
      (boundary && declKeywords.any (fun kw => kwBoundaryAt kw (ch :: t))) ||
        hasDeclScan (!isWordChar ch) t

/-- The hasDeclarations test of src/index.ts line 112. -/
def hasDeclarations (expression : List Char) : Bool :=
  hasDeclScan true expression

/-- The hasMultipleStatements test of src/index.ts line 113. -/
def hasMultipleStatements (expression : List Char) : Bool :=
  expression.contains ';'

/-- String.prototype.includes for a fixed search string. -/
def containsSub (s : List Char) : List Char → Bool
  | [] => (litMatch s []).isSome
  | ch :: t => (litMatch s (ch :: t)).isSome || containsSub s t

/-- String.prototype.lastIndexOf for the statement separator, as an Option
(none models the -1 result of the source at line 143). -/
def lastSemiIdx : List Char → Option Nat
  | [] => none
  | ch :: t =>
      match lastSemiIdx t with
      | some i => some (i + 1)
      | none => if ch = ';' then some 0 else none

/-- The expression preparation of the secure raw-mode path (src/index.ts
lines 132-156): IIFE forms are parenthesized; expressions with declarations
or several statements are wrapped into an immediately invoked function,
with an implicit return of the content after the last statement separator
when such content exists; simple expressions pass through. -/
def prepareCode (expression : List Char) : List Char :=
  if isIIFE expression then
    String.toList "(" ++ expression ++ String.toList ")"
  else if hasDeclarations expression || hasMultipleStatements expression then
    if containsSub (String.toList "return ") expression then
      String.toList "(function() \x7b " ++ expression ++ String.toList " \x7d)();"
    else
      match lastSemiIdx expression with
      | some lastSemicolonIndex =>
          if lastSemicolonIndex + 1 < expression.length then
            String.toList "(function() \x7b " ++ expression.take (lastSemicolonIndex + 1) ++
              String.toList " return " ++ jsTrim (expression.drop (lastSemicolonIndex + 1)) ++
              String.toList "; \x7d)();"
          else
            String.toList "(function() \x7b " ++ expression ++
              String.toList "; return undefined; \x7d)();"
      | none =>
          String.toList "(function() \x7b " ++ expression ++
            String.toList "; return undefined; \x7d)();"
  else expression

mutual
/-- Model of the String(result) conversion at src/index.ts line 228. -/
def jsToString : JSVal → String
  | JSVal.undef => "undefined"
  | JSVal.null => "null"
  | JSVal.boolean b => cond b "true" "false"
  | JSVal.num n => toString n
  | JSVal.str s => s
  | JSVal.arr xs => jsArrToString xs
termination_by structural v => v

/-- Array-to-string: elements joined by commas, as Array.prototype.toString;
null and undefined elements print as the empty string. -/
def jsArrToString : JSValList → String
  | JSValList.nil => ""
  | JSValList.cons JSVal.undef JSValList.nil => ""
  | JSValList.cons JSVal.null JSValList.nil => ""
  | JSValList.cons v JSValList.nil => jsToString v
  | JSValList.cons JSVal.undef (JSValList.cons w vs) =>
      "," ++ jsArrToString (JSValList.cons w vs)
  | JSValList.cons JSVal.null (JSValList.cons w vs) =>
      "," ++ jsArrToString (JSValList.cons w vs)
  | JSValList.cons v (JSValList.cons w vs) =>
      jsToString v ++ "," ++ jsArrToString (JSValList.cons w vs)
termination_by structural l => l
end

/-- Escape a string body for a JSON string literal. -/
def jsonEscapeChar (ch : Char) : String :=
  if ch = '"' then "\\\""
  else if ch = '\\' then "\\\\"
  else if ch = '\n' then "\\n"
  else if ch = '\r' then "\\r"
  else if ch = '\t' then "\\t"
  else String.singleton ch

mutual
/-- Model of JSON.stringify as used to build context declarations on the
unsafe direct-eval path (src/index.ts lines 123-125 and 199-201); an
undefined value interpolates as the text undefined. -/
def jsonStringify : JSVal → String
  | JSVal.undef => "undefined"
  | JSVal.null => "null"
  | JSVal.boolean b => cond b "true" "false"
  | JSVal.num n => toString n
  | JSVal.str s => "\"" ++ String.join (s.toList.map jsonEscapeChar) ++ "\""
  | JSVal.arr xs => "[" ++ jsonArrBody xs ++ "]"
termination_by structural v => v

/-- JSON array bodies: elements joined by commas. -/
def jsonArrBody : JSValList → String
  | JSValList.nil => ""
  | JSValList.cons v JSValList.nil => jsonStringify v
  | JSValList.cons v (JSValList.cons w vs) =>
      jsonStringify v ++ "," ++ jsonArrBody (JSValList.cons w vs)
termination_by structural l => l
end

/-- The const declarations prepended on the direct-eval path (src/index.ts
lines 123-125 and 199-201). -/
def contextVars (ctx : List (String × JSVal)) : String :=
  String.intercalate "\n"
    (ctx.map (fun p => "const " ++ p.1 ++ " = " ++ jsonStringify p.2 ++ ";"))

/-- The context merge at src/index.ts lines 92-95: object spread keeps the
base key order with extension values winning on collision, then appends the
extension-only keys. -/
def mergeCtx (context extensions : List (String × JSVal)) : List (String × JSVal) :=
  context.map (fun p => (p.1, (List.lookup p.1 extensions).getD p.2)) ++
    extensions.filter (fun q => !(context.any (fun p => p.1 == q.1)))

/-- String-mode projection of an outcome (src/index.ts lines 222-233):
null and undefined become the empty string, other values their textual
form, failures the inline error marker. -/
def projectSeg : Outcome → String
  | Outcome.value JSVal.undef => ""
  | Outcome.value JSVal.null => ""
  | Outcome.value v => jsToString v
  | Outcome.failure msg => "[Error: " ++ msg ++ "]"

/-- Raw-mode projection of an outcome (src/index.ts lines 178-187): values
pass through unchanged, failures become the error-marker string. -/
def projectRaw : Outcome → JSVal
  | Outcome.value v => v
  | Outcome.failure msg => JSVal.str ("[Error: " ++ msg ++ "]")

/-- Evaluation of one string-mode region (src/index.ts lines 192-220): the
direct-eval path prepends context declarations, otherwise the expression is
wrapped uniformly, with no shape classification, into a with-return body
handed to the Function constructor together with the sandbox bindings. -/
def evalStringSeg (host : Host) (mergedContext : List (String × JSVal))
    (options : RenderOptions) (expression : List Char) : Outcome :=
  if options.unsafeEval then
    host.directEval (contextVars mergedContext ++ "\n(" ++ String.mk expression ++ ")")
  else
    host.callFunction ("with(sandbox) \x7b return (" ++ String.mk expression ++ "); \x7d")
      mergedContext

/-- Evaluation of the raw-mode expression (src/index.ts lines 117-177): the
direct-eval path prepends context declarations; the secure path first
prepares the expression by shape (prepareCode) and wraps it into a
with-return body handed to the Function constructor. -/
def evalRaw (host : Host) (mergedContext : List (String × JSVal))
    (options : RenderOptions) (expression : List Char) : Outcome :=
  if options.unsafeEval then
    host.directEval (contextVars mergedContext ++ "\n" ++ String.mk expression)
  else
    host.callFunction
      ("with(sandbox) \x7b return " ++ String.mk (prepareCode expression) ++ "; \x7d")
      mergedContext

/-- The string-mode render (src/index.ts lines 191-234): global replace of
every matched region by the projection of its evaluation outcome. -/
def renderStringMode (host : Host) (template : String)
    (context : List (String × JSVal)) (options : RenderOptions) : String :=
  let d := options.delimiters.getD ("\x7b", "\x7d")
  let openDelimiter := d.1.toList
  let closeDelimiter := d.2.toList
  let delimiterChars := openDelimiter ++ closeDelimiter
  let mergedContext := mergeCtx context options.contextExtensions
  String.mk (replaceScan
    (fun expression => projectSeg (evalStringSeg host mergedContext options expression))
    openDelimiter closeDelimiter delimiterChars template.toList)

/-- The whole engine (src/index.ts lines 75-235).  When returnRawValues is
set and the trimmed template matches the anchored whole-template pattern,
the trimmed captured expression is evaluated on the raw path and projected
raw; otherwise the string-mode replace runs.  The sandbox, allowedGlobals
and timeout options have no occurrence in the body of the source function
and accordingly do not occur here. -/
def renderTemplateWithJS (host : Host) (template : String)
    (context : List (String × JSVal)) (options : RenderOptions) : JSVal :=
  let d := options.delimiters.getD ("\x7b", "\x7d")
  let openDelimiter := d.1.toList
  let closeDelimiter := d.2.toList
  let mergedContext := mergeCtx context options.contextExtensions
  if options.returnRawValues then
    match matchWhole openDelimiter closeDelimiter (jsTrim template.toList) with
    | some m => projectRaw (evalRaw host mergedContext options (jsTrim m))
    | none => JSVal.str (renderStringMode host template context options)
  else JSVal.str (renderStringMode host template context options)

/-- The segments of a template under the delimiters selected by the
options. -/
def segsOf (options : RenderOptions) (template : String) : List Seg :=
  let d := options.delimiters.getD ("\x7b", "\x7d")
  scanSegs d.1.toList d.2.toList (d.1.toList ++ d.2.toList) template.toList

/-- Reassemble a segment into the template text it came from. -/
def segJoin (o c : List Char) : Seg → List Char
  | Seg.lit ch => [ch]
  | Seg.expr e => o ++ e ++ c

/-- The contribution of a segment to the replace output. -/
def segOut (f : List Char → String) : Seg → List Char
  | Seg.lit ch => [ch]
  | Seg.expr e => (f e).toList

/-- Whether a segment is a literal character (no region matched there). -/
def isLitSeg : Seg → Bool
  | Seg.lit _ => true
  | Seg.expr _ => false

/-- Whether a segment is delimiter-clean: an expression segment may not
contain any character of the delimiter character class. -/
def segDelimFree (S : List Char) : Seg → Bool
  | Seg.lit _ => true
  | Seg.expr e => e.all (fun ch => !(S.contains ch))

/-- The characters the source escapes in a delimiter before building its
regular expressions (src/index.ts lines 84-85). -/
def regexSpecials : List Char :=
  ['.', '*', '+', '?', '^', '$', '\x7b', '\x7d', '(', ')', '|', '[', ']', '\\']

/-- The delimiter escaping of src/index.ts lines 84-85: a backslash is
prepended to every character with special meaning in a regular
expression. -/
def escapeRegExp (s : List Char) : List Char :=
  (s.map (fun ch => if regexSpecials.contains ch then ['\\', ch] else [ch])).flatten

/-- A token of a regular-expression pattern: a literal character, or a
character kept with its special meaning. -/
inductive PatTok where
  | lit : Char → PatTok
  | special : Char → PatTok

/-- Reading of a pattern text: a backslash makes the next character literal,
an unescaped special character keeps its special meaning, anything else is
literal. -/
def parsePattern : List Char → List PatTok
  | [] => []
  | ch :: rest =>
      if ch = '\\' then
        match rest with
        | [] => [PatTok.special '\\']
        | ch2 :: rest2 => PatTok.lit ch2 :: parsePattern rest2
      else
        (if regexSpecials.contains ch then PatTok.special ch else PatTok.lit ch) ::
          parsePattern rest

/-- Modelled from the spec: the external JavaScript runtime (the Function
constructor and the toString conversions it triggers), which spec sections
1, 4.5 and 9 delegate to a pre-existing scripting engine outside this
repository.  This model fixes the documented JavaScript meaning of the
concrete function bodies the claims exercise: arithmetic on literals,
self-invoking closures, the rewritten statement sequences, the global Math
object reachable through the with-scope fallthrough of the sandbox object,
and name resolution of the identifier nullValue inside the sandbox
bindings; every other program text is an unspecified failure. -/
def modelHost : Host where
  callFunction := fun body sandbox =>
    if body = "with(sandbox) \x7b return (1+2); \x7d" then
      Outcome.value (JSVal.num 3)
    else if body = "with(sandbox) \x7b return (1); \x7d" then
      Outcome.value (JSVal.num 1)
    else if body = "with(sandbox) \x7b return 1\x7d\x7b2; \x7d" then
      Outcome.value (JSVal.num 1)
    else if body = "with(sandbox) \x7b return ((() => \x7b const x = 1; return x; \x7d)()); \x7d" then
      Outcome.value (JSVal.num 1)
    else if body = "with(sandbox) \x7b return (function() \x7b let i = 0; return i + 1; \x7d)();; \x7d" then
      Outcome.value (JSVal.num 1)
    else if body = "with(sandbox) \x7b return (function() \x7b let i = 0;; return undefined; \x7d)();; \x7d" then
      Outcome.value JSVal.undef
    else if body = "with(sandbox) \x7b return (Math.max(1, 2)); \x7d" then
      Outcome.value (JSVal.num 2)
    else if body = "with(sandbox) \x7b return (let i = 0; i + 1); \x7d" then
      Outcome.failure "Unexpected identifier"
    else if body = "with(sandbox) \x7b return (nullValue); \x7d" then
      match List.lookup "nullValue" sandbox with
      | some v => Outcome.value v
      | none => Outcome.failure "nullValue is not defined"
    else if body = "with(sandbox) \x7b return nullValue; \x7d" then
      match List.lookup "nullValue" sandbox with
      | some v => Outcome.value v
      | none => Outcome.failure "nullValue is not defined"
    else Outcome.failure "unspecified program"
  directEval := fun _ => Outcome.failure "unspecified program"

/-! ## Helper lemmas about the scan -/

/-- A literal match succeeds exactly on texts that start with the literal. -/
theorem litMatch_some_iff (p : List Char) :
    ∀ t r, litMatch p t = some r ↔ t = p ++ r := by
  induction p with
  | nil => intro t r; simp [litMatch, eq_comm]
  | cons p ps ih =>
      intro t r
      cases t with
      | nil => simp [litMatch]
      | cons ch t =>
          by_cases h : p = ch
          · subst h; simp [litMatch, ih]
          · simp only [litMatch, if_neg h]
            constructor
            · intro hc; exact absurd hc (by simp)
            · intro hc
              rw [List.cons_append] at hc
              exact absurd (List.cons_eq_cons.mp hc).1.symm h

/-- A successful lazyClose splits the text as a run outside the delimiter
class followed by the close delimiter and the remainder. -/
theorem lazyClose_some (c S : List Char) :
    ∀ t content rest, lazyClose c S t = some (content, rest) →
      t = content ++ c ++ rest ∧ content.all (fun ch => !(S.contains ch)) = true := by
  intro t
  induction t with
  | nil =>
      intro content rest h
      cases c with
      | nil =>
          rw [lazyClose] at h
          simp only [litMatch, Option.map_some, Option.some.injEq, Prod.mk.injEq] at h
          obtain ⟨rfl, rfl⟩ := h
          simp
      | cons x xs =>
          rw [lazyClose] at h
          simp [litMatch] at h
  | cons ch t ih =>
      intro content rest h
      rw [lazyClose] at h
      cases hm : litMatch c (ch :: t) with
      | some r0 =>
          rw [hm] at h
          simp only [Option.some.injEq, Prod.mk.injEq] at h
          obtain ⟨rfl, rfl⟩ := h
          simpa using (litMatch_some_iff c (ch :: t) r0).mp hm
      | none =>
          rw [hm] at h
          by_cases hS : S.contains ch
          · rw [if_pos hS] at h; cases h
          · rw [if_neg hS] at h
            cases hrec : lazyClose c S t with
            | none => rw [hrec] at h; cases h
            | some p =>
                obtain ⟨c0, r0⟩ := p
                rw [hrec] at h
                simp only [Option.map_some, Option.some.injEq, Prod.mk.injEq] at h
                obtain ⟨rfl, rfl⟩ := h
                obtain ⟨ha, hb⟩ := ih c0 r0 hrec
                have hSf : S.contains ch = false := by
                  simpa using hS
                constructor
                · simp [ha]
                · simp
                  exact ⟨by simpa using hSf, by simpa using hb⟩

/-- A successful matchAt splits the text as open delimiter, expression run,
close delimiter, remainder, with the run outside the delimiter class. -/
theorem matchAt_some (o c S : List Char) (t content rest : List Char)
    (h : matchAt o c S t = some (content, rest)) :
    t = o ++ (content ++ c ++ rest) ∧ content.all (fun ch => !(S.contains ch)) = true := by
  unfold matchAt at h
  cases hl : litMatch o t with
  | none => rw [hl] at h; cases h
  | some t1 =>
      rw [hl] at h
      simp at h
      obtain ⟨ha, hb⟩ := lazyClose_some c S t1 content rest h
      refine ⟨?_, hb⟩
      rw [(litMatch_some_iff o t t1).mp hl, ha]

/-- Flattening singleton character lists recovers the text. -/
theorem flatten_map_singleton :
    ∀ t : List Char, (t.map (fun ch => ([ch] : List Char))).flatten = t := by
  intro t
  induction t with
  | nil => rfl
  | cons ch t ih => simp [ih]

/-- Reassembling the scanned segments recovers the template text. -/
theorem scanSegsF_join (o c S : List Char) :
    ∀ fuel t, ((scanSegsF o c S fuel t).map (segJoin o c)).flatten = t := by
  intro fuel
  induction fuel with
  | zero =>
      intro t
      cases t with
      | nil => rfl
      | cons ch t =>
          simp only [scanSegsF, List.map_map]
          have : (segJoin o c ∘ Seg.lit) = fun ch => ([ch] : List Char) := by
            funext x; rfl
          rw [this, flatten_map_singleton]
  | succ fuel ih =>
      intro t
      cases t with
      | nil => rfl
      | cons ch t =>
          cases hm : matchAt o c S (ch :: t) with
          | none => simp [scanSegsF, hm, segJoin, ih]
          | some p =>
              obtain ⟨content, rest⟩ := p
              by_cases hlen : rest.length ≤ t.length
              · have hsplit := (matchAt_some o c S _ _ _ hm).1
                simp [scanSegsF, hm, hlen, segJoin, ih]
                simp [hsplit]
              · simp [scanSegsF, hm, hlen, segJoin, ih]

/-- Every expression segment of the scan is free of delimiter-class
characters. -/
theorem scanSegsF_delimFree (o c S : List Char) :
    ∀ fuel t, (scanSegsF o c S fuel t).all (segDelimFree S) = true := by
  intro fuel
  induction fuel with
  | zero =>
      intro t
      cases t with
      | nil => rfl
      | cons ch t =>
          simp only [scanSegsF, List.all_eq_true]
          intro s hs
          simp only [List.mem_map] at hs
          obtain ⟨x, _, hx⟩ := hs
          rw [← hx]
          rfl
  | succ fuel ih =>
      intro t
      cases t with
      | nil => rfl
      | cons ch t =>
          cases hm : matchAt o c S (ch :: t) with
          | none => simp [scanSegsF, hm, segDelimFree, ih]
          | some p =>
              obtain ⟨content, rest⟩ := p
              by_cases hlen : rest.length ≤ t.length
              · have hfree := (matchAt_some o c S _ _ _ hm).2
                simp [scanSegsF, hm, hlen, segDelimFree, ih]
                simpa using hfree
              · simp [scanSegsF, hm, hlen, segDelimFree, ih]

/-- The operational replace equals the per-segment projection of the scan:
each matched region contributes exactly the image of its own expression
text, literal characters are copied, and segments do not interact. -/
theorem replaceScanF_eq (f : List Char → String) (o c S : List Char) :
    ∀ fuel t, replaceScanF f o c S fuel t = ((scanSegsF o c S fuel t).map (segOut f)).flatten := by
  intro fuel
  induction fuel with
  | zero =>
      intro t
      cases t with
      | nil => rfl
      | cons ch t =>
          simp only [replaceScanF, scanSegsF, List.map_map]
          have : (segOut f ∘ Seg.lit) = fun ch => ([ch] : List Char) := by
            funext x; rfl
          rw [this, flatten_map_singleton]
  | succ fuel ih =>
      intro t
      cases t with
      | nil => rfl
      | cons ch t =>
          cases hm : matchAt o c S (ch :: t) with
          | none => simp [replaceScanF, scanSegsF, hm, segOut, ih]
          | some p =>
              obtain ⟨content, rest⟩ := p
              by_cases hlen : rest.length ≤ t.length
              · simp [replaceScanF, scanSegsF, hm, hlen, segOut, ih]
              · simp [replaceScanF, scanSegsF, hm, hlen, segOut, ih]

/-- On a segment list with no expression segment the replace output equals
the reassembled input. -/
theorem allLit_flatten_eq (f : List Char → String) (o c : List Char) :
    ∀ segs : List Seg, segs.all isLitSeg = true →
      (segs.map (segOut f)).flatten = (segs.map (segJoin o c)).flatten := by
  intro segs
  induction segs with
  | nil => intro _; rfl
  | cons s segs ih =>
      intro h
      cases s with
      | lit ch =>
          rw [List.all_cons] at h
          simp only [isLitSeg, Bool.true_and] at h
          simp [segOut, segJoin, ih h]
      | expr e =>
          rw [List.all_cons] at h
          simp [isLitSeg] at h

/-- Rebuilding a string from its character list is the identity. -/
theorem stringMk_toList (s : String) : String.mk s.toList = s := rfl

/-- A template whose scan has no expression segment renders to itself in
string mode. -/
theorem renderStringMode_id_of_allLit (host : Host) (template : String)
    (context : List (String × JSVal)) (options : RenderOptions)
    (h : (segsOf options template).all isLitSeg = true) :
    renderStringMode host template context options = template := by
  simp only [segsOf, scanSegs] at h
  simp only [renderStringMode, replaceScan]
  rw [replaceScanF_eq,
    allLit_flatten_eq _ ((options.delimiters.getD ("\x7b", "\x7d")).1.toList)
      ((options.delimiters.getD ("\x7b", "\x7d")).2.toList) _ h,
    scanSegsF_join]
  exact stringMk_toList template

/-! ## Claim theorems -/

/-- C1: the source declares the sandbox and allowedGlobals options but its
body never reads them, so rendering is invariant under the Restricted trust
policy; concretely, under sandbox mode an expression referencing the host
global Math still evaluates through the ambient global scope and renders
its value instead of a run-time failure marker. -/
theorem sandbox_policy_not_enforced :
    (∀ (host : Host) (template : String) (context : List (String × JSVal))
        (options : RenderOptions) (b : Bool) (g : List (String × JSVal)),
      renderTemplateWithJS host template context
          { options with sandbox := b, allowedGlobals := g } =
        renderTemplateWithJS host template context options) ∧
    renderTemplateWithJS modelHost "\x7bMath.max(1, 2)\x7d" [] { sandbox := true } =
      JSVal.str "2" := by
  constructor
  · intro host template context options b g
    rfl
  · rfl

/-- C2 counterexample: with the default delimiters the template whose first
region span contains a further open delimiter is not matched at that first
open delimiter; the scan leaves the first open delimiter and the following
character as literal text and only matches the inner brace pair, so the
render keeps the leading open delimiter in the output instead of
substituting a region reaching to the first close delimiter. -/
theorem open_delimiter_inside_region_not_matched :
    scanSegs ['\x7b'] ['\x7d'] (['\x7b'] ++ ['\x7d']) "\x7bx\x7b1\x7d".toList =
      [Seg.lit '\x7b', Seg.lit 'x', Seg.expr ['1']] ∧
    renderTemplateWithJS modelHost "\x7bx\x7b1\x7d" [] {} = JSVal.str "\x7bx1" :=
  ⟨rfl, rfl⟩

/-- C2 amended: string-mode matching scans left to right and matches a
region at an occurrence of the open delimiter exactly when the following
span up to the close delimiter is free of every character of the two
delimiter strings; reassembling all segments recovers the template, and no
matched expression contains a delimiter character — in particular a span
containing an open-delimiter character is not matched as a region. -/
theorem regions_exclude_delimiter_chars (o c t : List Char) :
    ((scanSegs o c (o ++ c) t).map (segJoin o c)).flatten = t ∧
    (scanSegs o c (o ++ c) t).all (segDelimFree (o ++ c)) = true :=
  ⟨scanSegsF_join o c (o ++ c) t.length t,
   scanSegsF_delimFree o c (o ++ c) t.length t⟩

/-- C3 counterexample: a trimmed template made of two adjacent regions still
matches the whole-template pattern — the captured expression spans both
regions — so with returnRawValues the raw path is taken (here yielding the
raw number 1 from the host) instead of falling back to string-mode
substitution. -/
theorem adjacent_regions_taken_as_single_raw :
    matchWhole ['\x7b'] ['\x7d'] "\x7b1\x7d\x7b2\x7d".toList = some "1\x7d\x7b2".toList ∧
    renderTemplateWithJS modelHost "\x7b1\x7d\x7b2\x7d" [] { returnRawValues := true } =
      JSVal.num 1 :=
  ⟨rfl, rfl⟩

/-- C3 amended: the whole-template pattern succeeds exactly when the trimmed
text decomposes as open delimiter, any expression text, close delimiter —
it only anchors the open delimiter at the start and the close delimiter at
the end, and does not require the expression text to be free of further
delimiters, so a template of several adjacent regions is captured as one
expression spanning all of them. -/
theorem matchWhole_iff_exact_span (o c t e : List Char) :
    matchWhole o c t = some e ↔ t = o ++ e ++ c := by
  constructor
  · intro h
    unfold matchWhole at h
    cases hl : litMatch o t with
    | none => rw [hl] at h; cases h
    | some t1 =>
        rw [hl] at h
        have h2 : (if c.length ≤ t1.length ∧ List.drop (t1.length - c.length) t1 = c then
            some (List.take (t1.length - c.length) t1) else none) = some e := h
        split_ifs at h2 with hc
        obtain ⟨hlen, hdrop⟩ := hc
        simp only [Option.some.injEq] at h2
        have ht : t = o ++ t1 := (litMatch_some_iff o t t1).mp hl
        have hsplit : t1 = e ++ c := by
          have hta := List.take_append_drop (t1.length - c.length) t1
          rw [hdrop, h2] at hta
          exact hta.symm
        rw [ht, hsplit, List.append_assoc]
  · intro h
    subst h
    unfold matchWhole
    have hl : litMatch o (o ++ e ++ c) = some (e ++ c) :=
      (litMatch_some_iff o _ _).mpr (by simp [List.append_assoc])
    rw [hl]
    have hlen2 : (e ++ c).length - c.length = e.length := by
      simp [List.length_append]
    have hdrop : (e ++ c).drop ((e ++ c).length - c.length) = c := by
      rw [hlen2]; exact List.drop_left e c
    have hlen : c.length ≤ (e ++ c).length := by simp
    show (if c.length ≤ (e ++ c).length ∧ List.drop ((e ++ c).length - c.length) (e ++ c) = c
        then some (List.take ((e ++ c).length - c.length) (e ++ c)) else none) = some e
    rw [if_pos ⟨hlen, hdrop⟩, hlen2, List.take_left]

/-- C3 amended, witness: a concrete decomposition accepted by the
whole-template pattern through the amended characterization. -/
theorem matchWhole_iff_exact_span_witness :
    matchWhole "ab".toList "cd".toList "abXcd".toList = some ['X'] :=
  (matchWhole_iff_exact_span "ab".toList "cd".toList "abXcd".toList ['X']).mpr rfl

/-- C4: string-mode rendering is the independent concatenation of its
segments — the replace output is the flattening of the per-segment
projections, so a failing region contributes exactly its own inline marker
and leaves every other segment unchanged — and both projections turn a
failure message into the bracketed error marker; the raw-mode render of a
failure is the same marker as the returned value, and no exception leaves
the engine (all outcomes are totally projected). -/
theorem failures_isolated_and_marked :
    (∀ (host : Host) (template : String) (context : List (String × JSVal))
        (options : RenderOptions),
      renderStringMode host template context options =
        String.mk (((segsOf options template).map
          (segOut (fun e =>
            projectSeg (evalStringSeg host (mergeCtx context options.contextExtensions)
              options e)))).flatten)) ∧
    (∀ msg, projectSeg (Outcome.failure msg) = "[Error: " ++ msg ++ "]") ∧
    (∀ msg, projectRaw (Outcome.failure msg) = JSVal.str ("[Error: " ++ msg ++ "]")) := by
  refine ⟨?_, fun msg => rfl, fun msg => rfl⟩
  intro host template context options
  simp only [renderStringMode, replaceScan, segsOf, scanSegs]
  rw [replaceScanF_eq]

/-- C5: any expression passing the IIFE tests is wrapped by parenthesization
before the declaration and statement criteria are consulted; the concrete
closure containing both a declaration keyword and statement separators
passes the IIFE tests, is wrapped as a parenthesized self-invocation, and
evaluates in raw mode to the number 1 whenever the host runtime evaluates
the wrapped self-invocation to 1. -/
theorem iife_classified_before_statements :
    (∀ e : List Char, isIIFE e = true →
      prepareCode e = String.toList "(" ++ e ++ String.toList ")") ∧
    isIIFE (String.toList "(() => \x7b const x = 1; return x; \x7d)()") = true ∧
    hasDeclarations (String.toList "(() => \x7b const x = 1; return x; \x7d)()") = true ∧
    hasMultipleStatements (String.toList "(() => \x7b const x = 1; return x; \x7d)()") = true ∧
    prepareCode (String.toList "(() => \x7b const x = 1; return x; \x7d)()") =
      String.toList "((() => \x7b const x = 1; return x; \x7d)())" ∧
    (∀ (host : Host) (context : List (String × JSVal)),
      host.callFunction
          "with(sandbox) \x7b return ((() => \x7b const x = 1; return x; \x7d)()); \x7d"
          (mergeCtx context []) = Outcome.value (JSVal.num 1) →
      renderTemplateWithJS host "\x7b(() => \x7b const x = 1; return x; \x7d)()\x7d" context
          { returnRawValues := true } = JSVal.num 1) := by
  refine ⟨?_, rfl, rfl, rfl, rfl, ?_⟩
  · intro e h
    simp [prepareCode, h]
  · intro host context hcall
    rw [show renderTemplateWithJS host "\x7b(() => \x7b const x = 1; return x; \x7d)()\x7d"
          context { returnRawValues := true } =
        projectRaw (host.callFunction
          "with(sandbox) \x7b return ((() => \x7b const x = 1; return x; \x7d)()); \x7d"
          (mergeCtx context [])) from rfl, hcall]
    rfl

/-- C5 witness: the modelled runtime renders the closure template to the raw
number 1. -/
theorem iife_classified_before_statements_witness :
    renderTemplateWithJS modelHost "\x7b(() => \x7b const x = 1; return x; \x7d)()\x7d" []
        { returnRawValues := true } = JSVal.num 1 :=
  iife_classified_before_statements.2.2.2.2.2 modelHost [] rfl

/-- C6: for a raw-mode statement-sequence expression with no explicit return
text, the compiler keeps every statement up to and including the last
separator and returns the trailing content when there is any, and returns
undefined when the last separator ends the text; on the concrete inputs,
the rewritten template evaluates to 1, and the separator-final template
evaluates to undefined, whenever the host runtime gives the rewritten
bodies their JavaScript meaning. -/
theorem implicit_return_rewrite :
    (∀ (e : List Char) (i : Nat),
      isIIFE e = false →
      (hasDeclarations e || hasMultipleStatements e) = true →
      containsSub (String.toList "return ") e = false →
      lastSemiIdx e = some i →
      i + 1 < e.length →
      prepareCode e =
        String.toList "(function() \x7b " ++ e.take (i + 1) ++ String.toList " return " ++
          jsTrim (e.drop (i + 1)) ++ String.toList "; \x7d)();") ∧
    (∀ (e : List Char) (i : Nat),
      isIIFE e = false →
      (hasDeclarations e || hasMultipleStatements e) = true →
      containsSub (String.toList "return ") e = false →
      lastSemiIdx e = some i →
      ¬(i + 1 < e.length) →
      prepareCode e =
        String.toList "(function() \x7b " ++ e ++ String.toList "; return undefined; \x7d)();") ∧
    (∀ (host : Host) (context : List (String × JSVal)),
      host.callFunction
          "with(sandbox) \x7b return (function() \x7b let i = 0; return i + 1; \x7d)();; \x7d"
          (mergeCtx context []) = Outcome.value (JSVal.num 1) →
      renderTemplateWithJS host "\x7blet i = 0; i + 1\x7d" context { returnRawValues := true } =
        JSVal.num 1) ∧
    (∀ (host : Host) (context : List (String × JSVal)),
      host.callFunction
          "with(sandbox) \x7b return (function() \x7b let i = 0;; return undefined; \x7d)();; \x7d"
          (mergeCtx context []) = Outcome.value JSVal.undef →
      renderTemplateWithJS host "\x7blet i = 0;\x7d" context { returnRawValues := true } =
        JSVal.undef) := by
  refine ⟨?_, ?_, ?_, ?_⟩
  · intro e i h1 h2 h3 h4 h5
    have h3b : containsSub ['r', 'e', 't', 'u', 'r', 'n', ' '] e = false := h3
    simp [prepareCode, h1, h2, h3b, h4, h5]
  · intro e i h1 h2 h3 h4 h5
    have h3b : containsSub ['r', 'e', 't', 'u', 'r', 'n', ' '] e = false := h3
    simp [prepareCode, h1, h2, h3b, h4, h5]
  · intro host context hcall
    rw [show renderTemplateWithJS host "\x7blet i = 0; i + 1\x7d" context
          { returnRawValues := true } =
        projectRaw (host.callFunction
          "with(sandbox) \x7b return (function() \x7b let i = 0; return i + 1; \x7d)();; \x7d"
          (mergeCtx context [])) from rfl, hcall]
    rfl
  · intro host context hcall
    rw [show renderTemplateWithJS host "\x7blet i = 0;\x7d" context
          { returnRawValues := true } =
        projectRaw (host.callFunction
          "with(sandbox) \x7b return (function() \x7b let i = 0;; return undefined; \x7d)();; \x7d"
          (mergeCtx context [])) from rfl, hcall]
    rfl

/-- C6 witness: under the modelled runtime the two concrete raw-mode
renders produce 1 and undefined, and the rewritten unit for the concrete
statement sequence is the stated one. -/
theorem implicit_return_rewrite_witness :
    renderTemplateWithJS modelHost "\x7blet i = 0; i + 1\x7d" [] { returnRawValues := true } =
      JSVal.num 1 ∧
    renderTemplateWithJS modelHost "\x7blet i = 0;\x7d" [] { returnRawValues := true } =
      JSVal.undef ∧
    prepareCode (String.toList "let i = 0; i + 1") =
      String.toList "(function() \x7b let i = 0; return i + 1; \x7d)();" :=
  ⟨implicit_return_rewrite.2.2.1 modelHost [] rfl,
   implicit_return_rewrite.2.2.2 modelHost [] rfl,
   implicit_return_rewrite.1 (String.toList "let i = 0; i + 1") 9 rfl rfl rfl rfl
     (by decide)⟩

/-- C7: a successful null or undefined outcome projects to the empty string
in string mode while every other successful value projects to its textual
form; the raw projection returns the value itself unchanged; concretely a
region evaluating to null renders as the empty substitution in string mode
and passes through as null in raw mode. -/
theorem null_undefined_projection :
    projectSeg (Outcome.value JSVal.undef) = "" ∧
    projectSeg (Outcome.value JSVal.null) = "" ∧
    (∀ v : JSVal, v ≠ JSVal.undef → v ≠ JSVal.null →
      projectSeg (Outcome.value v) = jsToString v) ∧
    (∀ v : JSVal, projectRaw (Outcome.value v) = v) ∧
    (∀ (host : Host) (context : List (String × JSVal)),
      host.callFunction "with(sandbox) \x7b return (nullValue); \x7d" (mergeCtx context []) =
        Outcome.value JSVal.null →
      renderTemplateWithJS host "Value: \x7bnullValue\x7d" context {} = JSVal.str "Value: ") ∧
    (∀ (host : Host) (context : List (String × JSVal)),
      host.callFunction "with(sandbox) \x7b return nullValue; \x7d" (mergeCtx context []) =
        Outcome.value JSVal.null →
      renderTemplateWithJS host "\x7bnullValue\x7d" context { returnRawValues := true } =
        JSVal.null) := by
  refine ⟨rfl, rfl, ?_, fun v => rfl, ?_, ?_⟩
  · intro v h1 h2
    cases v with
    | undef => exact absurd rfl h1
    | null => exact absurd rfl h2
    | boolean b => rfl
    | num n => rfl
    | str s => rfl
    | arr xs => rfl
  · intro host context hcall
    rw [show renderTemplateWithJS host "Value: \x7bnullValue\x7d" context {} =
        JSVal.str (String.mk (String.toList "Value: " ++
          (projectSeg (host.callFunction "with(sandbox) \x7b return (nullValue); \x7d"
            (mergeCtx context []))).toList ++ ([] : List Char))) from rfl, hcall]
    rfl
  · intro host context hcall
    rw [show renderTemplateWithJS host "\x7bnullValue\x7d" context { returnRawValues := true } =
        projectRaw (host.callFunction "with(sandbox) \x7b return nullValue; \x7d"
          (mergeCtx context [])) from rfl, hcall]
    rfl

/-- C7 witness: with the modelled runtime and a context binding nullValue to
null, string mode substitutes the empty string and raw mode returns null
itself. -/
theorem null_undefined_projection_witness :
    renderTemplateWithJS modelHost "Value: \x7bnullValue\x7d" [("nullValue", JSVal.null)] {} =
      JSVal.str "Value: " ∧
    renderTemplateWithJS modelHost "\x7bnullValue\x7d" [("nullValue", JSVal.null)]
        { returnRawValues := true } = JSVal.null ∧
    projectSeg (Outcome.value (JSVal.num 5)) = jsToString (JSVal.num 5) :=
  ⟨null_undefined_projection.2.2.2.2.1 modelHost [("nullValue", JSVal.null)] rfl,
   null_undefined_projection.2.2.2.2.2 modelHost [("nullValue", JSVal.null)] rfl,
   null_undefined_projection.2.2.1 (JSVal.num 5) (fun h => nomatch h) (fun h => nomatch h)⟩

/-- C8: a template whose scan contains no region segment renders to itself
byte for byte in string mode, and therefore rendering a string-mode output
again — with any host, context and options under which its scan has no
region segment — returns it unchanged. -/
theorem no_region_render_identity :
    (∀ (host : Host) (template : String) (context : List (String × JSVal))
        (options : RenderOptions),
      (segsOf options template).all isLitSeg = true →
      renderStringMode host template context options = template) ∧
    (∀ (hostA hostB : Host) (template : String)
        (c1 c2 : List (String × JSVal)) (o1 o2 : RenderOptions),
      (segsOf o2 (renderStringMode hostA template c1 o1)).all isLitSeg = true →
      renderStringMode hostB (renderStringMode hostA template c1 o1) c2 o2 =
        renderStringMode hostA template c1 o1) :=
  ⟨fun host template context options h =>
      renderStringMode_id_of_allLit host template context options h,
   fun hostA hostB template c1 c2 o1 o2 h =>
      renderStringMode_id_of_allLit hostB (renderStringMode hostA template c1 o1) c2 o2 h⟩

/-- C8 witness: a delimiter-free template renders to itself, and rendering
the output of a concrete string-mode render again leaves it unchanged. -/
theorem no_region_render_identity_witness :
    renderStringMode modelHost "hello" [] {} = "hello" ∧
    renderStringMode modelHost (renderStringMode modelHost "Value: \x7bnullValue\x7d"
        [("nullValue", JSVal.null)] {}) [] {} =
      renderStringMode modelHost "Value: \x7bnullValue\x7d" [("nullValue", JSVal.null)] {} :=
  ⟨no_region_render_identity.1 modelHost "hello" [] {} rfl,
   no_region_render_identity.2 modelHost modelHost "Value: \x7bnullValue\x7d"
     [("nullValue", JSVal.null)] [] {} {} rfl⟩

/-- C9: delimiter escaping neutralizes every special character — the escaped
pattern of any delimiter string reads as exactly the literal characters of
that string — and with the dollar-brace delimiter pair the template finds
its region at the literal markers, rendering the arithmetic scenario to the
expected text whenever the host runtime computes the sum. -/
theorem delimiters_matched_literally :
    (∀ d : List Char, parsePattern (escapeRegExp d) = d.map PatTok.lit) ∧
    (∀ (host : Host) (context : List (String × JSVal)),
      host.callFunction "with(sandbox) \x7b return (1+2); \x7d" (mergeCtx context []) =
        Outcome.value (JSVal.num 3) →
      renderTemplateWithJS host "Result: $\x7b1+2\x7d" context
          { delimiters := some ("$\x7b", "\x7d") } = JSVal.str "Result: 3") := by
  constructor
  · intro d
    induction d with
    | nil => rfl
    | cons ch d ih =>
        have hstep : escapeRegExp (ch :: d) =
            (if regexSpecials.contains ch then ['\\', ch] else [ch]) ++ escapeRegExp d := by
          simp [escapeRegExp]
        by_cases h : regexSpecials.contains ch
        · rw [hstep, if_pos h]
          simp [parsePattern, ih]
        · have hch : ch ≠ '\\' := by
            intro hh
            rw [hh] at h
            simp [regexSpecials] at h
          rw [hstep, if_neg h]
          rw [show ([ch] ++ escapeRegExp d : List Char) = ch :: escapeRegExp d from rfl]
          rw [parsePattern.eq_def]
          dsimp only
          rw [if_neg hch, if_neg (by simpa using h), ih]
          simp
  · intro host context hcall
    rw [show renderTemplateWithJS host "Result: $\x7b1+2\x7d" context
          { delimiters := some ("$\x7b", "\x7d") } =
        JSVal.str (String.mk (String.toList "Result: " ++
          (projectSeg (host.callFunction "with(sandbox) \x7b return (1+2); \x7d"
            (mergeCtx context []))).toList ++ ([] : List Char))) from rfl, hcall]
    rfl

/-- C9 witness: the modelled runtime renders the custom-delimiter scenario
to the expected text. -/
theorem delimiters_matched_literally_witness :
    renderTemplateWithJS modelHost "Result: $\x7b1+2\x7d" []
        { delimiters := some ("$\x7b", "\x7d") } = JSVal.str "Result: 3" :=
  delimiters_matched_literally.2 modelHost [] rfl

/-- C10 counterexample: a matched string-mode expression that contains a
declaration keyword and statement separators — a self-invoking closure,
matched here through bracket delimiters whose characters do not occur in
the closure — substitutes its computed value 1, not an error marker, under
the modelled runtime. -/
theorem declaration_inside_closure_succeeds_in_string_mode :
    hasDeclarations (String.toList "(() => \x7b const x = 1; return x; \x7d)()") = true ∧
    hasMultipleStatements (String.toList "(() => \x7b const x = 1; return x; \x7d)()") = true ∧
    renderTemplateWithJS modelHost "[[(() => \x7b const x = 1; return x; \x7d)()]]" []
        { delimiters := some ("[[", "]]") } = JSVal.str "1" :=
  ⟨rfl, rfl, rfl⟩

/-- C10 amended: string mode evaluates every matched expression through the
single uniform with-return wrapping with no shape classification, so a
matched expression that is not itself a valid parenthesized expression —
such as a bare declaration plus trailing expression — substitutes the
inline error marker the host reports, while a matched expression that is a
valid expression, even one containing declarations and separators inside a
self-invoking closure, substitutes its computed textual value. -/
theorem string_mode_uniform_wrapping :
    (∀ (host : Host) (mergedContext : List (String × JSVal)) (options : RenderOptions)
        (e : List Char),
      options.unsafeEval = false →
      evalStringSeg host mergedContext options e =
        host.callFunction ("with(sandbox) \x7b return (" ++ String.mk e ++ "); \x7d")
          mergedContext) ∧
    (∀ (host : Host) (context : List (String × JSVal)) (msg : String),
      host.callFunction "with(sandbox) \x7b return (let i = 0; i + 1); \x7d"
          (mergeCtx context []) = Outcome.failure msg →
      renderTemplateWithJS host "\x7blet i = 0; i + 1\x7d" context {} =
        JSVal.str ("[Error: " ++ msg ++ "]")) ∧
    (∀ (host : Host) (context : List (String × JSVal)) (v : JSVal),
      host.callFunction
          "with(sandbox) \x7b return ((() => \x7b const x = 1; return x; \x7d)()); \x7d"
          (mergeCtx context []) = Outcome.value v →
      v ≠ JSVal.undef → v ≠ JSVal.null →
      renderTemplateWithJS host "[[(() => \x7b const x = 1; return x; \x7d)()]]" context
          { delimiters := some ("[[", "]]") } = JSVal.str (jsToString v)) := by
  refine ⟨?_, ?_, ?_⟩
  · intro host mergedContext options e h
    simp [evalStringSeg, h]
  · intro host context msg hcall
    rw [show renderTemplateWithJS host "\x7blet i = 0; i + 1\x7d" context {} =
        JSVal.str (String.mk
          ((projectSeg (host.callFunction "with(sandbox) \x7b return (let i = 0; i + 1); \x7d"
            (mergeCtx context []))).toList ++ ([] : List Char))) from rfl, hcall]
    rw [List.append_nil]
    rfl
  · intro host context v hcall h1 h2
    rw [show renderTemplateWithJS host "[[(() => \x7b const x = 1; return x; \x7d)()]]" context
          { delimiters := some ("[[", "]]") } =
        JSVal.str (String.mk ((projectSeg (host.callFunction
          "with(sandbox) \x7b return ((() => \x7b const x = 1; return x; \x7d)()); \x7d"
          (mergeCtx context []))).toList ++ ([] : List Char))) from rfl, hcall]
    rw [List.append_nil]
    cases v with
    | undef => exact absurd rfl h1
    | null => exact absurd rfl h2
    | boolean b => rfl
    | num n => rfl
    | str s => rfl
    | arr xs => rfl

/-- C10 amended, witness: under the modelled runtime the bare statement
sequence substitutes the inline marker, the closure substitutes 1, and the
uniform wrapping instance holds at a concrete expression. -/
theorem string_mode_uniform_wrapping_witness :
    renderTemplateWithJS modelHost "\x7blet i = 0; i + 1\x7d" [] {} =
      JSVal.str "[Error: Unexpected identifier]" ∧
    renderTemplateWithJS modelHost "[[(() => \x7b const x = 1; return x; \x7d)()]]" []
        { delimiters := some ("[[", "]]") } = JSVal.str (jsToString (JSVal.num 1)) ∧
    evalStringSeg modelHost [] {} (String.toList "1+2") =
      modelHost.callFunction "with(sandbox) \x7b return (1+2); \x7d" [] :=
  ⟨string_mode_uniform_wrapping.2.1 modelHost [] "Unexpected identifier" rfl,
   string_mode_uniform_wrapping.2.2 modelHost [] (JSVal.num 1) rfl
     (fun h => nomatch h) (fun h => nomatch h),
   string_mode_uniform_wrapping.1 modelHost [] {} (String.toList "1+2") rfl⟩
